import Mathlib

/-!
Verification of the drift-toolkit compliance engine against its
natural-language specification.

The repository under verification is an end-to-end test suite for the
drift-toolkit CLI and library.  The engine itself ships as an external
package, so the definitions below are a shallow embedding modelled from
the specification (data model in spec sections 3 and 4) and, where the
published tool is recorded by the test suite to deviate from that
contract (issues.md, and the BUG-annotated tests), from the observed
behavior those tests assert.  File contents are byte lists, a
filesystem is a finite association list from relative paths to
contents, and shell commands are an oracle from command text to an
outcome (exit code, captured streams, natural running time).
-/

/-- Byte content of one file.  Comparison of two `Bytes` values is the
byte-for-byte comparison the integrity checker performs. -/
abbrev Bytes := List Nat

/-- A repository (or approved-baseline) filesystem: a finite map from
relative paths to file contents. -/
abbrev FS := List (String × Bytes)

/-- Look up the content stored at path `p`. -/
def FS.lookup (fs : FS) (p : String) : Option Bytes :=
  match fs with
  | [] => none
  | (q, c) :: rest => if q = p then some c else FS.lookup rest p

/-- Whether a file exists at path `p`. -/
def FS.hasFile (fs : FS) (p : String) : Bool :=
  (FS.lookup fs p).isSome

/-- The list of paths present in the filesystem. -/
def FS.paths (fs : FS) : List String :=
  fs.map Prod.fst

/-- Write content `c` at path `p`, replacing any existing entry. -/
def FS.write (fs : FS) (p : String) (c : Bytes) : FS :=
  match fs with
  | [] => [(p, c)]
  | (q, d) :: rest => if q = p then (p, c) :: rest else (q, d) :: FS.write rest p c

/-- Modelled from the spec: `ScannabilityResult` of section 3, produced
by the repository metadata reader. -/
structure ScannabilityResult where
  scannable : Bool
  hasMetadata : Bool
  hasCheckToml : Bool
  deriving Repr, DecidableEq

/-- Modelled from the spec: metadata detection tries `repo-metadata.yaml`
then `repo-metadata.yml` (spec section 4.1). -/
def hasMetadata (repo : FS) : Bool :=
  FS.hasFile repo "repo-metadata.yaml" || FS.hasFile repo "repo-metadata.yml"

/-- Modelled from the spec: `check.toml` is a presence-only signal for
scannability (spec section 6). -/
def hasCheckToml (repo : FS) : Bool :=
  FS.hasFile repo "check.toml"

/-- Modelled from the spec: `isScannable(repoPath) -> ScannabilityResult`
with `scannable = hasMetadata && hasCheckToml` (spec sections 3 and 4.1);
the drift-toolkit export is named `isScannableRepo`. -/
def isScannableRepo (repo : FS) : ScannabilityResult :=
  ⟨hasMetadata repo && hasCheckToml repo, hasMetadata repo, hasCheckToml repo⟩

/-- Per-file verdict of one integrity check (spec section 3).  The
constructor `fileMatch` renders the status literal `match`. -/
inductive IntegrityStatus where
  | fileMatch
  | drift
  | missing
  deriving Repr, DecidableEq

/-- Configured integrity check: target path, approved-baseline path and
severity label (spec section 3). -/
structure IntegrityCheck where
  file : String
  approved : String
  severity : String
  deriving Repr, DecidableEq

/-- Result of one integrity check (spec section 3). -/
structure IntegrityResult where
  file : String
  status : IntegrityStatus
  severity : String
  deriving Repr, DecidableEq

/-- Modelled from the spec: `checkOne` of spec section 4.2, exported by
drift-toolkit as `checkIntegrity`.  Read the target bytes (absent target
gives status `missing`); read the approved bytes (absent approved file is
an error surfaced to the caller, never a silent `match`); otherwise
compare whole files byte for byte. -/
def checkIntegrity (check : IntegrityCheck) (repo : FS) (approvedBase : FS) :
    Except String IntegrityResult :=
  match FS.lookup repo check.file with
  | none => Except.ok ⟨check.file, IntegrityStatus.missing, check.severity⟩
  | some target =>
    match FS.lookup approvedBase check.approved with
    | none => Except.error ("approved file not found: " ++ check.approved)
    | some approvedBytes =>
      if target = approvedBytes then
        Except.ok ⟨check.file, IntegrityStatus.fileMatch, check.severity⟩
      else
        Except.ok ⟨check.file, IntegrityStatus.drift, check.severity⟩

/-- One configured shell check (spec section 3, `ScanDefinition`). -/
structure ScanDefinition where
  name : String
  command : String
  description : Option String
  if_file : Option String
  if_command : Option String
  timeout : Option Nat
  tiers : Option (List String)
  severity : Option String
  deriving Repr, DecidableEq

/-- Outcome of a scan: `pass`, `fail` or `skip` (spec section 3). -/
inductive ScanStatus where
  | pass
  | fail
  | skip
  deriving Repr, DecidableEq

/-- Result record of one scan (spec section 3, `ScanResult`).  The
`stderr` and `severity` fields are options so that the observed library
behavior, which leaves them undefined, is representable next to the
contract that requires them. -/
structure ScanResult where
  scan : String
  status : ScanStatus
  exitCode : Nat
  stdout : String
  stderr : Option String
  severity : Option String
  deriving Repr, DecidableEq

/-- What executing one shell command in the repository working directory
produces: exit code, captured streams, and the natural running time in
milliseconds.  The shell is an external collaborator, so it enters the
model as an oracle of this type. -/
structure CmdOutcome where
  exitCode : Nat
  stdout : String
  stderr : String
  durationMs : Nat
  deriving Repr, DecidableEq

/-- Context handed to the scan runner; carries the repository tier
(spec section 4.4). -/
structure ScanContext where
  tier : Option String
  deriving Repr, DecidableEq

/-- Instrumented return value of a scan-runner invocation: the result,
the commands that were actually executed in order, and the wall-clock
duration in milliseconds.  The two extra fields are ghost observations
used to state the gating-order and timeout claims. -/
structure ScanExec where
  result : ScanResult
  executed : List String
  durationMs : Nat
  deriving Repr, DecidableEq

/-- Modelled from the spec: gate (1) of section 4.4 — if `tiers` is set
and the context tier is absent or not in the set, the scan is skipped. -/
def tierGateOk (scan : ScanDefinition) (context : Option ScanContext) : Bool :=
  match scan.tiers with
  | none => true
  | some ts =>
    match context with
    | none => false
    | some ctx =>
      match ctx.tier with
      | none => false
      | some t => ts.contains t

/-- Modelled from the spec: gate (2) of section 4.4 — if `if_file` is set
and the file is absent in the repository, the scan is skipped. -/
def ifFileOk (repo : FS) (scan : ScanDefinition) : Bool :=
  match scan.if_file with
  | none => true
  | some f => FS.hasFile repo f

/-- Outcome of the gating phase: either the scan is skipped, or the
primary command may run.  Both carry the gate commands executed so far
and the time they took. -/
inductive GateOutcome where
  | skipped (executed : List String) (durationMs : Nat)
  | proceed (executed : List String) (durationMs : Nat)
  deriving Repr, DecidableEq

/-- Modelled from the spec: the fixed gating order of section 4.4 — tier
filter, then `if_file`, then `if_command`; a failed gate skips the scan
without executing any later gate or the primary command. -/
def applyGates (env : String → CmdOutcome) (repo : FS) (scan : ScanDefinition)
    (context : Option ScanContext) : GateOutcome :=
  if tierGateOk scan context then
    if ifFileOk repo scan then
      match scan.if_command with
      | none => GateOutcome.proceed [] 0
      | some c =>
        if (env c).exitCode = 0 then GateOutcome.proceed [c] (env c).durationMs
        else GateOutcome.skipped [c] (env c).durationMs
    else GateOutcome.skipped [] 0
  else GateOutcome.skipped [] 0

/-- Modelled from the spec: the default deadline that applies when a scan
definition has no `timeout`; the concrete value is not pinned by the spec
or the tests, only that some default applies. -/
def defaultScanTimeoutMs : Nat := 300000

/-- Modelled from the spec: the synthetic nonzero exit code reported for
a timed-out scan; the spec requires only that it is nonzero. -/
def timeoutExitCode : Nat := 124

/-- Modelled from the repository's tests and issues.md: the `runScan`
library export of drift-toolkit 1.14.1 as the test suite records it.
Gating, status, exit code, stdout capture and the timeout deadline all
behave as the contract demands (the corresponding tests pass), but the
result's `stderr` and `severity` are left undefined — issues.md numbers
12 and 13. -/
def runScan (env : String → CmdOutcome) (repo : FS) (scan : ScanDefinition)
    (context : Option ScanContext) : ScanExec :=
  match applyGates env repo scan context with
  | GateOutcome.skipped ex d =>
    ⟨⟨scan.name, ScanStatus.skip, 0, "", none, none⟩, ex, d⟩
  | GateOutcome.proceed ex d =>
    let o := env scan.command
    let limit := scan.timeout.getD defaultScanTimeoutMs
    if limit < o.durationMs then
      ⟨⟨scan.name, ScanStatus.fail, timeoutExitCode, "", none, none⟩,
        ex ++ [scan.command], d + limit⟩
    else
      ⟨⟨scan.name, (if o.exitCode = 0 then ScanStatus.pass else ScanStatus.fail),
          o.exitCode, o.stdout, none, none⟩,
        ex ++ [scan.command], d + o.durationMs⟩

/-- Modelled from the spec: the `run` contract of section 4.4 as written —
identical to the observed `runScan` except that the result carries the
captured standard-error text and the severity copied from the definition,
as the contract strictly requires. -/
def runScanContract (env : String → CmdOutcome) (repo : FS) (scan : ScanDefinition)
    (context : Option ScanContext) : ScanExec :=
  match applyGates env repo scan context with
  | GateOutcome.skipped ex d =>
    ⟨⟨scan.name, ScanStatus.skip, 0, "", some "", scan.severity⟩, ex, d⟩
  | GateOutcome.proceed ex d =>
    let o := env scan.command
    let limit := scan.timeout.getD defaultScanTimeoutMs
    if limit < o.durationMs then
      ⟨⟨scan.name, ScanStatus.fail, timeoutExitCode, "", some o.stderr, scan.severity⟩,
        ex ++ [scan.command], d + limit⟩
    else
      ⟨⟨scan.name, (if o.exitCode = 0 then ScanStatus.pass else ScanStatus.fail),
          o.exitCode, o.stdout, some o.stderr, scan.severity⟩,
        ex ++ [scan.command], d + o.durationMs⟩

/-- Modelled from the repository's tests: the scan execution performed by
the `drift code scan` CLI path as cli-scan.test.ts (BUG number 16 there)
records it — the configured `timeout` is ignored and the command always
runs for its full natural duration, its status determined by the real
exit code. -/
def cliRunScan (env : String → CmdOutcome) (repo : FS) (scan : ScanDefinition)
    (context : Option ScanContext) : ScanExec :=
  match applyGates env repo scan context with
  | GateOutcome.skipped ex d =>
    ⟨⟨scan.name, ScanStatus.skip, 0, "", none, none⟩, ex, d⟩
  | GateOutcome.proceed ex d =>
    let o := env scan.command
    ⟨⟨scan.name, (if o.exitCode = 0 then ScanStatus.pass else ScanStatus.fail),
        o.exitCode, o.stdout, none, none⟩,
      ex ++ [scan.command], d + o.durationMs⟩

/-- A discovery suggestion pattern (spec section 3). -/
structure DiscoveryPattern where
  pattern : String
  suggestion : String
  deriving Repr, DecidableEq

/-- A discovered file together with the pattern that matched it
(spec section 3). -/
structure DiscoveryResult where
  file : String
  pattern : String
  suggestion : String
  deriving Repr, DecidableEq

/-- Fuel-driven glob matcher on character lists.  A star matches any run
of characters that does not cross a path separator; every other pattern
character matches itself.  The fuel strictly exceeds the combined length
of pattern and subject, and every recursive call shrinks that combined
length, so the fuel never runs out on the initial call. -/
def globMatchFuel : Nat → List Char → List Char → Bool
  | 0, _, _ => false
  | Nat.succ n, ps, s =>
    match ps, s with
    | [], [] => true
    | [], _ :: _ => false
    | '*' :: pr, [] => globMatchFuel n pr []
    | '*' :: pr, c :: sr =>
      globMatchFuel n pr (c :: sr) || (decide (c ≠ '/') && globMatchFuel n ('*' :: pr) sr)
    | _ :: _, [] => false
    | p :: pr, c :: sr => decide (p = c) && globMatchFuel n pr sr

/-- Modelled from the spec: glob matching of a repository-relative path
against a discovery pattern (spec section 4.3). -/
def globMatch (pattern s : String) : Bool :=
  globMatchFuel (pattern.length + s.length + 1) pattern.toList s.toList

/-- Modelled from the repository's tests and issues.md: the
`discoverFiles` export of drift-toolkit 1.14.1 as observed — for each
pattern, in order, every matching repository path is reported; the
`alreadyProtected` argument is accepted but ignored (issues.md number 3:
protected files still appear in the discovered array). -/
def discoverFiles (patterns : List DiscoveryPattern) (repo : FS)
    (alreadyProtected : List String) : List DiscoveryResult :=
  patterns.flatMap fun p =>
    ((FS.paths repo).filter fun f => globMatch p.pattern f).map fun f =>
      ⟨f, p.pattern, p.suggestion⟩

/-- Modelled from the spec: the `discover` contract of section 4.3 as
written — identical to the observed export except that any match present
in `alreadyProtected` (exact relative-path comparison) is excluded. -/
def discoverFilesSpec (patterns : List DiscoveryPattern) (repo : FS)
    (alreadyProtected : List String) : List DiscoveryResult :=
  patterns.flatMap fun p =>
    ((FS.paths repo).filter fun f =>
        globMatch p.pattern f && !(alreadyProtected.contains f)).map fun f =>
      ⟨f, p.pattern, p.suggestion⟩

/-- Per-path status in a tree diff (spec section 4.5). -/
inductive ChangeKind where
  | added
  | modified
  | deleted
  deriving Repr, DecidableEq

/-- Whether a path changed content between the two trees. -/
def diffModified (base target : FS) (p : String) : Bool :=
  match FS.lookup base p, FS.lookup target p with
  | some a, some b => decide (a ≠ b)
  | _, _ => false

/-- Modelled from the spec: `diffTree(base,target)` of the git
collaborator boundary (spec section 6) — per-path added, modified and
deleted classification between two commit trees. -/
def diffTree (base target : FS) : List (String × ChangeKind) :=
  ((FS.paths target).filter fun p => (FS.lookup base p).isNone).map
      (fun p => (p, ChangeKind.added))
    ++ ((FS.paths target).filter fun p => diffModified base target p).map
      (fun p => (p, ChangeKind.modified))
    ++ ((FS.paths base).filter fun p => (FS.lookup target p).isNone).map
      (fun p => (p, ChangeKind.deleted))

/-- Whether a path is a check manifest: `check.toml` at the root or in
any subdirectory (spec section 4.5, the always-tracked manifest). -/
def isCheckTomlPath (p : String) : Bool :=
  decide (p = "check.toml") || p.endsWith "/check.toml"

/-- Result of check-manifest change detection, shaped as the
drift-toolkit export reports it: per-status path lists and the
`hasChanges` flag (dependency-detection tests). -/
structure CheckTomlChanges where
  added : List String
  modified : List String
  deleted : List String
  hasChanges : Bool
  deriving Repr, DecidableEq

/-- Modelled from the spec: `detectCheckTomlChanges(repo, {baseCommit,
targetCommit})` — the git store is a read-only map from commit reference
to tree (spec sections 4.5 and 6, design note on content-addressed
stores); the tree diff is restricted to check manifests and bucketed by
status. -/
def detectCheckTomlChanges (resolve : String → FS) (baseCommit targetCommit : String) :
    CheckTomlChanges :=
  let ct := (diffTree (resolve baseCommit) (resolve targetCommit)).filter
    fun pc => isCheckTomlPath pc.fst
  let a := (ct.filter fun pc => decide (pc.snd = ChangeKind.added)).map Prod.fst
  let m := (ct.filter fun pc => decide (pc.snd = ChangeKind.modified)).map Prod.fst
  let dl := (ct.filter fun pc => decide (pc.snd = ChangeKind.deleted)).map Prod.fst
  ⟨a, m, dl, decide (0 < a.length + m.length + dl.length)⟩

/-- Options of the fix engine (spec section 4.7). -/
structure FixOptions where
  dryRun : Bool
  fileFilter : Option String
  deriving Repr, DecidableEq

/-- The planned remediation for one integrity check (spec section 4.7):
create or overwrite the target with the approved bytes, report a file
already in sync, or surface a missing approved source as an explicit
unresolvable-fix error. -/
inductive FixAction where
  | create (file : String) (content : Bytes)
  | overwrite (file : String) (content : Bytes)
  | alreadyMatches (file : String)
  | unresolvableApproved (file : String)
  deriving Repr, DecidableEq

/-- Modelled from the spec: the per-check planning step of section 4.7. -/
def planAction (repo approvedBase : FS) (check : IntegrityCheck) : FixAction :=
  match FS.lookup approvedBase check.approved with
  | none => FixAction.unresolvableApproved check.file
  | some b =>
    match FS.lookup repo check.file with
    | none => FixAction.create check.file b
    | some a =>
      if a = b then FixAction.alreadyMatches check.file
      else FixAction.overwrite check.file b

/-- Apply one planned action to the repository tree. -/
def performAction (repo : FS) : FixAction → FS
  | FixAction.create f b => FS.write repo f b
  | FixAction.overwrite f b => FS.write repo f b
  | FixAction.alreadyMatches _ => repo
  | FixAction.unresolvableApproved _ => repo

/-- Modelled from the spec: the fix engine of section 4.7.  The checks
are restricted by `fileFilter` when given, a plan is computed for every
selected check, and the plan is performed against the repository tree
only when `dryRun` is false.  Returns the resulting tree and the plan. -/
def runFix (checks : List IntegrityCheck) (repo approvedBase : FS)
    (opts : FixOptions) : FS × List FixAction :=
  let selected := match opts.fileFilter with
    | none => checks
    | some f => checks.filter fun c => decide (c.file = f)
  let actions := selected.map (planAction repo approvedBase)
  (if opts.dryRun then repo else actions.foldl performAction repo, actions)

/-- Configuration consumed by one `drift code scan` invocation: the
protected-file integrity checks and the scan definitions
(spec section 6, `drift.config.yaml`). -/
structure DriftConfig where
  protectedChecks : List IntegrityCheck
  scans : List ScanDefinition
  deriving Repr, DecidableEq

/-- Whether one integrity outcome counts as clean for the top-level
report: a byte-exact match. -/
def integrityClean : Except String IntegrityResult → Bool
  | Except.ok r => decide (r.status = IntegrityStatus.fileMatch)
  | Except.error _ => false

/-- Whether one scan outcome counts as clean for the top-level report:
anything but a failure (skips are silent). -/
def scanClean (r : ScanResult) : Bool :=
  decide (r.status ≠ ScanStatus.fail)

/-- Modelled from the repository's tests and issues.md: the top-level
report line of `drift code scan` for a local path as drift-toolkit 1.14.1
prints it.  The report is a function of the configured integrity and scan
results alone; scannability is never consulted, so a repository missing
its metadata file or check manifest (or holding malformed ones) still
reports that all checks passed — issues.md numbers 4 through 8 and 10,
and the BUG-annotated tests in cli-scan.test.ts and edge-cases.test.ts,
which assert exactly this output. -/
def cliScanReport (env : String → CmdOutcome) (repo approvedBase : FS)
    (config : DriftConfig) (context : Option ScanContext) : String :=
  let intRs := config.protectedChecks.map fun c => checkIntegrity c repo approvedBase
  let scanRs := config.scans.map fun s => (cliRunScan env repo s context).result
  if intRs.all integrityClean && scanRs.all scanClean then "All checks passed"
  else "Issues found"

/-- A shell oracle in which every command succeeds instantly with empty
streams; used where the commands never influence the claim. -/
def env0 : String → CmdOutcome := fun _ => ⟨0, "", "", 0⟩

/-- Shell oracle for the timeout scenario of cli-scan.test.ts: the
command `sleep 3` runs for its natural 3000 milliseconds and then exits
cleanly. -/
def sleepEnv : String → CmdOutcome := fun c =>
  if c = "sleep 3" then ⟨0, "", "", 3000⟩ else ⟨0, "", "", 0⟩

/-- The scan definition of the timeout tests: command `sleep 3` under a
500 millisecond deadline. -/
def slowScan : ScanDefinition :=
  ⟨"slow-scan", "sleep 3", none, none, none, some 500, none, some "low"⟩

/-- Shell oracle for the stderr-capture test of cli-scan.test.ts: the
command writes to standard error and exits cleanly. -/
def stderrEnv : String → CmdOutcome := fun c =>
  if c = "echo error-output 1>&2" then ⟨0, "", "error-output\n", 1⟩ else ⟨0, "", "", 0⟩

/-- The scan definition of the stderr-capture and severity tests. -/
def stderrScan : ScanDefinition :=
  ⟨"stderr-test", "echo error-output 1>&2", none, none, none, none, none, some "low"⟩

/-- The tier-gated scan definition of the gating tests: restricted to
tier `production`. -/
def tierScan : ScanDefinition :=
  ⟨"production-only", "echo production", none, none, none, none,
    some ["production"], some "high"⟩

/-- The `if_file`-gated scan definition of the gating tests: requires
`package.json`. -/
def ifFileScan : ScanDefinition :=
  ⟨"npm-test", "npm test", none, some "package.json", none, none, none, some "high"⟩

/-- The `if_command`-gated scan definition of the gating tests. -/
def ifCmdScan : ScanDefinition :=
  ⟨"conditional-scan", "echo running", none, none,
    some "test -f nonexistent-file", none, none, some "low"⟩

/-- Shell oracle in which the gate predicate `test -f nonexistent-file`
exits nonzero and every other command succeeds. -/
def gateFailEnv : String → CmdOutcome := fun c =>
  if c = "test -f nonexistent-file" then ⟨1, "", "", 1⟩ else ⟨0, "", "", 0⟩

/-- A repository holding only `repo-metadata.yaml` — the scenario of the
silent-success tests: metadata present, check manifest absent. -/
def metaOnlyRepo : FS := [("repo-metadata.yaml", [116, 105, 101, 114])]

/-- A repository holding two workflow files — the discovery-exclusion
scenario of library-api.test.ts. -/
def workflowRepo : FS :=
  [(".github/workflows/ci.yml", [1]), (".github/workflows/deploy.yml", [2])]

/-- The discovery pattern of the discovery-exclusion scenario. -/
def workflowPatterns : List DiscoveryPattern :=
  [⟨".github/workflows/*.yml", "Consider protecting"⟩]

/-- The protected file of the empty-approved-file fix scenario. -/
def emptyApprovedCheck : IntegrityCheck := ⟨"CODEOWNERS", "CODEOWNERS", "critical"⟩

theorem lookup_isSome_of_mem_paths (fs : FS) (p : String) (h : p ∈ FS.paths fs) :
    (FS.lookup fs p).isSome = true := by
  induction fs with
  | nil => simp [FS.paths] at h
  | cons e tl ih =>
    by_cases he : e.fst = p
    · simp [FS.lookup, he]
    · have hp : p ∈ FS.paths tl := by
        simp only [FS.paths, List.map_cons, List.mem_cons] at h
        rcases h with h | h
        · exact absurd h.symm he
        · exact h
      simp [FS.lookup, he, ih hp]

theorem diffModified_self (fs : FS) (p : String) : diffModified fs fs p = false := by
  unfold diffModified
  cases hq : FS.lookup fs p with
  | none => simp
  | some v => simp

theorem diffTree_self (fs : FS) : diffTree fs fs = [] := by
  unfold diffTree
  have h1 : ((FS.paths fs).filter fun p => (FS.lookup fs p).isNone) = [] := by
    rw [List.filter_eq_nil_iff]
    intro p hp
    have hs := lookup_isSome_of_mem_paths fs p hp
    cases hq : FS.lookup fs p with
    | none => rw [hq] at hs; simp at hs
    | some v => simp [hq]
  have h2 : ((FS.paths fs).filter fun p => diffModified fs fs p) = [] := by
    rw [List.filter_eq_nil_iff]
    intro p _
    simp [diffModified_self]
  rw [h1, h2]
  simp

/-- C6: dependency-change detection with equal base and target commit
references deterministically yields no changes: every per-status list is
empty and `hasChanges` is false, for every git store and every commit. -/
theorem detectCheckTomlChanges_idempotent (resolve : String → FS) (c : String) :
    detectCheckTomlChanges resolve c c = ⟨[], [], [], false⟩ := by
  simp [detectCheckTomlChanges, diffTree_self]

/-- C8: for every repository, `isScannableRepo` returns
`scannable = hasMetadata && hasCheckToml`, where `hasMetadata` holds iff
`repo-metadata.yaml` or `repo-metadata.yml` exists and `hasCheckToml`
holds iff `check.toml` exists. -/
theorem isScannableRepo_formula (repo : FS) :
    (isScannableRepo repo).scannable
        = ((isScannableRepo repo).hasMetadata && (isScannableRepo repo).hasCheckToml)
      ∧ ((isScannableRepo repo).hasMetadata = true
        ↔ (FS.hasFile repo "repo-metadata.yaml" = true
            ∨ FS.hasFile repo "repo-metadata.yml" = true))
      ∧ ((isScannableRepo repo).hasCheckToml = true
        ↔ FS.hasFile repo "check.toml" = true) := by
  refine ⟨rfl, ?_, Iff.rfl⟩
  simp [isScannableRepo, hasMetadata]

/-- C9: running the fix engine with `dryRun = true` leaves the repository
tree unchanged for every check set, repository, baseline and file filter,
while still computing exactly the plan a non-dry run would perform. -/
theorem runFix_dryRun_preserves_fs (checks : List IntegrityCheck)
    (repo approvedBase : FS) (ff : Option String) :
    (runFix checks repo approvedBase ⟨true, ff⟩).fst = repo
      ∧ (runFix checks repo approvedBase ⟨true, ff⟩).snd
        = (runFix checks repo approvedBase ⟨false, ff⟩).snd := by
  constructor <;> simp [runFix]

/-- C2: for every check, repository and baseline whose approved file
holds bytes `b`, `checkIntegrity` returns status `drift` exactly when the
target bytes differ from `b`, status `match` exactly when they are equal
byte for byte, and status `missing` exactly when the target file is
absent — for arbitrary byte contents, hence independent of size or
encoding. -/
theorem checkIntegrity_byte_exact (check : IntegrityCheck) (repo approvedBase : FS)
    (b : Bytes) (hB : FS.lookup approvedBase check.approved = some b) :
    (∀ a, FS.lookup repo check.file = some a →
      ((checkIntegrity check repo approvedBase
          = Except.ok ⟨check.file, IntegrityStatus.drift, check.severity⟩) ↔ a ≠ b)
        ∧ ((checkIntegrity check repo approvedBase
          = Except.ok ⟨check.file, IntegrityStatus.fileMatch, check.severity⟩) ↔ a = b))
      ∧ (FS.lookup repo check.file = none →
        checkIntegrity check repo approvedBase
          = Except.ok ⟨check.file, IntegrityStatus.missing, check.severity⟩) := by
  constructor
  · intro a ha
    unfold checkIntegrity
    rw [ha, hB]
    by_cases h : a = b <;> simp [h]
  · intro hnone
    unfold checkIntegrity
    rw [hnone]

/-- Witness for C2 at the CODEOWNERS scenario of library-api.test.ts:
target bytes differ from the approved bytes, so the status is `drift`. -/
theorem checkIntegrity_byte_exact_witness :
    checkIntegrity ⟨"CODEOWNERS", "CODEOWNERS", "critical"⟩
        [("CODEOWNERS", [50])] [("CODEOWNERS", [49])]
      = Except.ok ⟨"CODEOWNERS", IntegrityStatus.drift, "critical"⟩ :=
  ((checkIntegrity_byte_exact ⟨"CODEOWNERS", "CODEOWNERS", "critical"⟩
      [("CODEOWNERS", [50])] [("CODEOWNERS", [49])] [49] (by decide)).1
    [50] (by decide)).1.mpr (by decide)

/-- C7: `runScan` applies its gates in the fixed order tier filter, then
`if_file`, then `if_command`, and a failed gate yields status `skip`
without executing any later gate command or the primary command: a tier
mismatch executes nothing, an absent `if_file` executes nothing, and a
nonzero-exit `if_command` executes only that gate command. -/
theorem runScan_gating_order (env : String → CmdOutcome) (repo : FS)
    (scan : ScanDefinition) (context : Option ScanContext) :
    (tierGateOk scan context = false →
      (runScan env repo scan context).result.status = ScanStatus.skip
        ∧ (runScan env repo scan context).executed = [])
      ∧ (∀ f, tierGateOk scan context = true → scan.if_file = some f →
        FS.hasFile repo f = false →
        (runScan env repo scan context).result.status = ScanStatus.skip
          ∧ (runScan env repo scan context).executed = [])
      ∧ (∀ c, tierGateOk scan context = true → ifFileOk repo scan = true →
        scan.if_command = some c → (env c).exitCode ≠ 0 →
        (runScan env repo scan context).result.status = ScanStatus.skip
          ∧ (runScan env repo scan context).executed = [c]) := by
  refine ⟨?_, ?_, ?_⟩
  · intro ht
    simp [runScan, applyGates, ht]
  · intro f ht hf hmiss
    have hfo : ifFileOk repo scan = false := by
      simp [ifFileOk, hf, hmiss]
    simp [runScan, applyGates, ht, hfo]
  · intro c ht hfo hc hcode
    simp [runScan, applyGates, ht, hfo, hc, hcode]

/-- Witness for C7 at the three gating scenarios of the scanning tests:
a production-only scan under an internal tier, an `if_file` scan in a
repository without `package.json`, and an `if_command` scan whose gate
predicate exits nonzero. -/
theorem runScan_gating_order_witness :
    ((runScan env0 [] tierScan (some ⟨some "internal"⟩)).result.status = ScanStatus.skip
        ∧ (runScan env0 [] tierScan (some ⟨some "internal"⟩)).executed = [])
      ∧ ((runScan env0 [] ifFileScan none).result.status = ScanStatus.skip
        ∧ (runScan env0 [] ifFileScan none).executed = [])
      ∧ ((runScan gateFailEnv [] ifCmdScan none).result.status = ScanStatus.skip
        ∧ (runScan gateFailEnv [] ifCmdScan none).executed
          = ["test -f nonexistent-file"]) := by
  refine ⟨?_, ?_, ?_⟩
  · exact (runScan_gating_order env0 [] tierScan (some ⟨some "internal"⟩)).1 (by decide)
  · exact (runScan_gating_order env0 [] ifFileScan none).2.1 "package.json"
      (by decide) (by decide) (by decide)
  · exact (runScan_gating_order gateFailEnv [] ifCmdScan none).2.2
      "test -f nonexistent-file" (by decide) (by decide) (by decide) (by decide)

/-- C1: the silent-success defect at the scenario of the claim — the
repository holds `repo-metadata.yaml` but no `check.toml`, so
`isScannableRepo` reports `scannable = false` with `hasCheckToml = false`,
yet the observed top-level report of `drift code scan` (empty-config run
of cli-scan.test.ts, BUG numbers 4 and 5) still reads exactly
"All checks passed", contradicting the requirement that a material error
never yields only that report. -/
theorem cliScanReport_silent_on_missing_check_toml :
    isScannableRepo metaOnlyRepo = ⟨false, true, false⟩
      ∧ cliScanReport env0 metaOnlyRepo [] ⟨[], []⟩ none = "All checks passed" := by
  constructor
  · rfl
  · rfl

/-- C3: the CLI timeout defect at the scenario of cli-scan.test.ts (BUG
number 16 there) — for the definition with `timeout` 500 milliseconds and
command `sleep 3`, the CLI scan path runs the subprocess for its full
3000 millisecond natural duration and reports `pass`, while the `runScan`
library call honors the deadline: 500 millisecond wall clock, status
`fail`, synthetic nonzero exit code. -/
theorem cliRunScan_ignores_timeout :
    (cliRunScan sleepEnv [] slowScan none).durationMs = 3000
      ∧ (cliRunScan sleepEnv [] slowScan none).result.status = ScanStatus.pass
      ∧ (runScan sleepEnv [] slowScan none).durationMs = 500
      ∧ (runScan sleepEnv [] slowScan none).result.status = ScanStatus.fail
      ∧ (runScan sleepEnv [] slowScan none).result.exitCode ≠ 0 := by
  refine ⟨rfl, rfl, rfl, rfl, by decide⟩

/-- C4: the dropped-field defect of issues.md numbers 12 and 13 — for a
command that writes to standard error under severity `low`, the observed
`runScan` result leaves both `stderr` and `severity` undefined, while the
written contract (`runScanContract`) carries the captured standard-error
text and the severity copied from the definition. -/
theorem runScan_drops_stderr_and_severity :
    (runScan stderrEnv [] stderrScan none).result.stderr = none
      ∧ (runScan stderrEnv [] stderrScan none).result.severity = none
      ∧ (runScanContract stderrEnv [] stderrScan none).result.stderr
        = some "error-output\n"
      ∧ (runScanContract stderrEnv [] stderrScan none).result.severity
        = some "low" := by
  refine ⟨rfl, rfl, rfl, rfl⟩

/-- C5: the exclusion defect of issues.md number 3 at the scenario of
library-api.test.ts — with `.github/workflows/ci.yml` listed as already
protected, the observed `discoverFiles` still reports it among the
discovered files, while the spec contract (`discoverFilesSpec`) excludes
it and reports only `deploy.yml`. -/
theorem discoverFiles_returns_protected_file :
    (discoverFiles workflowPatterns workflowRepo
        [".github/workflows/ci.yml"]).map DiscoveryResult.file
      = [".github/workflows/ci.yml", ".github/workflows/deploy.yml"]
      ∧ (discoverFilesSpec workflowPatterns workflowRepo
        [".github/workflows/ci.yml"]).map DiscoveryResult.file
      = [".github/workflows/deploy.yml"] := by
  refine ⟨by decide, by decide⟩

/-- C10: a non-dry-run fix with a zero-byte approved baseline overwrites
the drifted target with exactly the approved bytes, leaving it empty: the
planned action is an overwrite, not a missing-approved-source error, and
the resulting tree holds empty content at the target path. -/
theorem runFix_empty_approved_overwrites :
    FS.lookup (runFix [emptyApprovedCheck] [("CODEOWNERS", [42, 64])]
        [("CODEOWNERS", [])] ⟨false, none⟩).fst "CODEOWNERS" = some []
      ∧ (runFix [emptyApprovedCheck] [("CODEOWNERS", [42, 64])]
        [("CODEOWNERS", [])] ⟨false, none⟩).snd
      = [FixAction.overwrite "CODEOWNERS" []] := by
  refine ⟨by decide, by decide⟩
